import Mathlib

/-!
The rae-lite client: challenge-response retrieval of dictionary entries.

A shallow embedding of `src/index.js`.  The three capabilities the program
consumes from its platform (the HTTP transport `fetch`, the markup query
library `cheerio`, and dynamic code evaluation through `new Function`) are
fields of a `Platform` record; everything else is translated function by
function.  Every operation returns its outcome together with the list of
platform calls it made, so that statements about which calls are (not) issued
can be expressed.
-/

namespace RaeLite

/-! ## Values, errors, objects -/

/-- A JavaScript value that has a string conversion, as this program observes it: the
program only ever asks whether a value is a string (`isString`) and converts it to a string
(template literals, `encodeURI`).  `str s` is the primitive string `s`; `strObject s` is a
`String` object wrapping `s`, which lodash also classifies as a string; `other shown` is
any other value whose string conversion is `shown` (`undefined`, `null`, numbers,
booleans, ...). -/
inductive JsVal where
  | str (s : String)
  | strObject (s : String)
  | other (shown : String)
deriving DecidableEq

/-- The string conversion applied by a template literal. -/
def JsVal.toStr : JsVal → String
  | .str s => s
  | .strObject s => s
  | .other shown => shown

/-- An `Error` object; the program builds all of its errors with `new Error(msg)`,
so an error is identified by its message. -/
structure JsError where
  message : String
deriving DecidableEq

/-- Any value that can be passed as an argument: `val v` has a string conversion,
`unprintable fault` has none (a symbol, an object without prototype): converting it to a
string throws `fault`, the `TypeError` of the engine. -/
inductive JsAny where
  | val (v : JsVal)
  | unprintable (fault : JsError)
deriving DecidableEq

/-- The evaluation of a template literal `${word}` on any value: the text, or the fault
thrown by the conversion. -/
def JsAny.toStr : JsAny → Except JsError String
  | .val v => .ok v.toStr
  | .unprintable fault => .error fault

/-- A thrown value, as a `catch` clause of this program observes it, through
`error.message` inside a template literal.  `error e` is an `Error` object with the message
of `e`, or any other value whose `message` property converts to that text; `nullish fault`
is a value whose message cannot be read: `null` or `undefined`, on which reading `message`
throws `fault`, the `TypeError` of the engine. -/
inductive Thrown where
  | error (e : JsError)
  | nullish (fault : JsError)
deriving DecidableEq

/-- The evaluation of `${error.message}` on a thrown value. -/
def Thrown.messageText : Thrown → Except JsError String
  | .error e => .ok e.message
  | .nullish fault => .error fault

/-- The value that leaves a `throw f(x)` or a `reject(f(x))` placed inside a `try` block or
a promise executor: the error built by `f(x)` or, when building it throws, the fault
thrown. -/
def thrownBy : Except JsError JsError → JsError
  | .ok error => error
  | .error fault => fault

/-- A plain object `{}`: its own properties, in the order in which they were created. -/
abbrev JsObject := List (String × JsVal)

/-- Creation or update of the own property `key`: an existing property keeps its position
and gets the new value, a new property is appended. -/
def JsObject.put : JsObject → String → JsVal → JsObject
  | [], key, v => [(key, v)]
  | (k, w) :: rest, key, v =>
    if k = key then (k, v) :: rest else (k, w) :: JsObject.put rest key v

/-- The assignment `obj[key] = v` on a plain object.  The key `__proto__` reaches the
prototype accessor instead and creates no own property. -/
def JsObject.set (obj : JsObject) (key : String) (v : JsVal) : JsObject :=
  if key = "__proto__" then obj else obj.put key v

/-- The property read `obj[key]` of an own property `key`; a key that is not an own
property reads as `undefined` (the program only reads keys listed by `Object.keys`, so
inherited properties are never looked up). -/
def JsObject.get : JsObject → String → JsVal
  | [], _ => .other "undefined"
  | (k, w) :: rest, key => if k = key then w else JsObject.get rest key

/-- The numeric value of a decimal digit string read left to right. -/
def digitsValue (cs : List Char) : Nat :=
  cs.foldl (fun acc c => 10 * acc + (c.toNat - 48)) 0

/-- A property key is an array index when it is the canonical decimal spelling of an
integer between `0` and `2^32 - 2`; the result is that integer. -/
def arrayIndex? (key : String) : Option Nat :=
  let cs := key.data
  if cs.isEmpty then none
  else if !cs.all Char.isDigit then none
  else if cs.head? = some '0' ∧ cs.length ≠ 1 then none
  else if digitsValue cs < 4294967295 then some (digitsValue cs) else none

/-- The integer an array-index key stands for (`0` for any other key). -/
def indexValue (key : String) : Nat :=
  (arrayIndex? key).getD 0

/-- The enumeration `Object.keys(obj)`: array-index keys first, in ascending numeric order,
then all other keys in creation order. -/
def Object.keys (obj : JsObject) : List String :=
  ((obj.map Prod.fst).filter fun k => (arrayIndex? k).isSome).insertionSort
      (fun a b => indexValue a ≤ indexValue b) ++
    (obj.map Prod.fst).filter fun k => (arrayIndex? k).isNone

/-! ## String primitives -/

/-- Position of the first occurrence of `pat` at or after offset `i`, `-1` when absent. -/
def indexOfFrom (pat : List Char) : List Char → Nat → Int
  | [], i => if pat.isEmpty then (i : Int) else -1
  | c :: cs, i => if pat.isPrefixOf (c :: cs) then (i : Int) else indexOfFrom pat cs (i + 1)

/-- The method `s.indexOf(pat)`. -/
def indexOf (s pat : String) : Int :=
  indexOfFrom pat.data s.data 0

/-- The method `s.substr(start)` for a non-negative `start`. -/
def substr (s : String) (start : Int) : String :=
  ⟨s.data.drop start.toNat⟩

/-- Replacement of the first occurrence of `pat` by `rep`, on character lists. -/
def replaceFirst (pat rep : List Char) : List Char → List Char
  | [] => if pat.isEmpty then rep else []
  | c :: cs =>
    if pat.isPrefixOf (c :: cs) then rep ++ (c :: cs).drop pat.length
    else c :: replaceFirst pat rep cs

/-- The method `s.replace(pat, rep)` with a string pattern: only the first occurrence is
replaced (`rep` contains no `$` pattern in this program). -/
def replace (s pat rep : String) : String :=
  ⟨replaceFirst pat.data rep.data s.data⟩

/-- The method `parts.join(sep)`. -/
def join (parts : List String) (sep : String) : String :=
  sep.intercalate parts

/-! ## Constants and error constructors -/

def RAE_OFFICIAL_HTTP_ENDPOINT : String := "http://dle.rae.es/srv/"

def RAE_SEARCH_ACTION : String := "search?w="

def RAE_FETCH_ACTION : String := "fetch?id="

def NotFoundError (word : JsVal) : JsError :=
  ⟨"\"" ++ word.toStr ++ "\" not found in RAE"⟩

/-- The call `NotValidWordError(word)` on any value: the template literal converts `word`
to a string, which may throw. -/
def NotValidWordError (word : JsAny) : Except JsError JsError :=
  match word.toStr with
  | .ok text => .ok ⟨"\"" ++ text ++ "\" word param provided must be a valid string"⟩
  | .error fault => .error fault

/-- The error `ParserError(error)` builds when `error.message` reads as `text`. -/
def parserErrorWith (text : String) : JsError :=
  ⟨"\"" ++ text ++
    "\" parser error found. Please raise an issue at https://github.com/Tsur/node-rae/issues"⟩

/-- The call `ParserError(error)` on a thrown value: reading `error.message` may throw. -/
def ParserError (error : Thrown) : Except JsError JsError :=
  match error.messageText with
  | .ok text => .ok (parserErrorWith text)
  | .error fault => .error fault

def NoChallengeScriptFoundError : JsError :=
  ⟨"No challenge SCRIPT found!, It is possible due to RAE updated its API. Please raise an issue at https://github.com/Tsur/node-rae/issues"⟩

/-! ## utils -/

/-- Membership in the class `[a-zñáéíóúü]` under the `i` flag: a character matches when it
is one of the listed letters or the upper-case form of one. -/
def wordChar (c : Char) : Bool :=
  ('a' ≤ c && c ≤ 'z') || ('A' ≤ c && c ≤ 'Z') ||
    "ñáéíóúü".data.contains c || "ÑÁÉÍÓÚÜ".data.contains c

/-- The test `wordRegex.test(word)` for `/^[a-zñáéíóúü]+$/i`: one or more characters, all
of them in the class. -/
def wordRegexTest (word : String) : Bool :=
  !word.data.isEmpty && word.data.all wordChar

/-- The lodash test `isString`: primitive strings and `String` objects. -/
def isString : JsAny → Bool
  | .val (.str _) => true
  | .val (.strObject _) => true
  | .val (.other _) => false
  | .unprintable _ => false

/-- The lodash test `isEmpty` on a string or `String` object of text `word`: its length
is zero. -/
def isEmpty (word : String) : Bool :=
  word.data.isEmpty

/-- The conjunction `isString(word) && !isEmpty(word) && wordRegex.test(word)`; `&&`
stops at `isString` for a value that is not a string, so the other two tests only see
strings and `String` objects, through their text. -/
def isAWord : JsAny → Bool
  | .val (.str s) => isString (.val (.str s)) && !isEmpty s && wordRegexTest s
  | .val (.strObject s) => isString (.val (.strObject s)) && !isEmpty s && wordRegexTest s
  | .val (.other shown) => isString (.val (.other shown))
  | .unprintable fault => isString (.unprintable fault)

def toFormData (obj : JsObject) : String :=
  join ((Object.keys obj).map fun key => key ++ "=" ++ (obj.get key).toStr) "&"

/-! ## Platform capabilities -/

/-- An HTTP request as passed to `fetch(url, options)`. -/
structure Request where
  url : String
  method : String
  body : Option String
deriving DecidableEq

/-- The part of an HTTP response the program reads: `status` and `text()`. -/
structure Response where
  status : Nat
  text : String
deriving DecidableEq

/-- An `input` element as the program reads it: `name` is the result of `attr('name')`
and `value` the result of `attr('value')`, `none` standing for `undefined`. -/
structure InputElement where
  name : Option String
  value : Option String
deriving DecidableEq

/-- An `a` element as the program reads it: `text` is the result of `text()` and `href`
the result of `attr('href')`, `none` standing for `undefined`. -/
structure Anchor where
  text : String
  href : Option String
deriving DecidableEq

/-- A loaded document, as seen through the four selections the program makes, each in
document order: `$('script')` (the `html()` of every element), `$('body input')`,
`$('body ul li a')` and `$('body p')` (the `text()` of every element). -/
structure Document where
  scripts : List String
  bodyInputs : List InputElement
  bodyListAnchors : List Anchor
  bodyParagraphs : List String
deriving DecidableEq

/-- The capabilities consumed from the platform.  `fetch` is the transport, `load` is
`cheerio.load` followed by the selections, `run body` is `new Function(body)()()`: the
function built from `body` is called and the function it returns is called in turn,
`encodeURI` is the built-in of that name, and `replaceFault` is the `TypeError` the engine
raises for `undefined.replace(...)`, whose wording depends on the engine.  A capability
that throws returns `error` with the value thrown. -/
structure Platform where
  fetch : Request → Except JsError Response
  load : String → Except Thrown Document
  run : String → Except Thrown JsVal
  encodeURI : String → String
  replaceFault : JsError

/-- A call made to the platform. -/
inductive Effect where
  | fetch (req : Request)
  | load (domAsString : String)
  | run (body : String)
deriving DecidableEq

/-! ## parser -/

/-- The text handed to `new Function`: `return` followed by the script text from the
marker onward, with the form assignment rewritten into a `return`. -/
def challengeBody (crc : String) (challengeScriptPosition : Int) : String :=
  "return " ++ replace (substr crc challengeScriptPosition)
    "document.forms[0].elements[1].value=" "return "

/-- The property key `obj[name]` uses for the result of `attr('name')`. -/
def propertyKey : Option String → String
  | some name => name
  | none => "undefined"

/-- The expression `$(el).attr('value') || challengeCode`: an absent attribute and the
empty string are both falsy. -/
def valueOr (value : Option String) (challengeCode : JsVal) : JsVal :=
  match value with
  | some v => if v.data.isEmpty then challengeCode else .str v
  | none => challengeCode

/-- The loop `$('body input').each(...)` over an initially empty `formData`. -/
def collectInputs (inputs : List InputElement) (challengeCode : JsVal) : JsObject :=
  inputs.foldl (fun formData el =>
    formData.set (propertyKey el.name) (valueOr el.value challengeCode)) []

/-- The `try` block of `parseAuth`: the outcome (a thrown error or the resolved form)
and the platform calls made. -/
def parseAuthTry (P : Platform) (domAsString : String) :
    Except Thrown JsObject × List Effect :=
  match P.load domAsString with
  | .error fault => (.error fault, [.load domAsString])
  | .ok doc =>
    match doc.scripts[1]? with
    | none => (.error (.error NoChallengeScriptFoundError), [.load domAsString])
    | some crc =>
      if crc.data.isEmpty then (.error (.error NoChallengeScriptFoundError), [.load domAsString])
      else
        let challengeScriptPosition := indexOf crc "function challenge()"
        if challengeScriptPosition < 0 then
          (.error (.error NoChallengeScriptFoundError), [.load domAsString])
        else
          let body := challengeBody crc challengeScriptPosition
          match P.run body with
          | .error fault => (.error fault, [.load domAsString, .run body])
          | .ok challengeCode =>
            (.ok (collectInputs doc.bodyInputs challengeCode),
              [.load domAsString, .run body])

/-- The executor built by `parseAuth`: whatever the `try` block throws goes through
`reject(ParserError(error))`. -/
def parseAuth (P : Platform) (domAsString : String) :
    Except JsError JsObject × List Effect :=
  match parseAuthTry P domAsString with
  | (.error error, calls) => (.error (thrownBy (ParserError error)), calls)
  | (.ok formData, calls) => (.ok formData, calls)

/-- An element of `items`; `match_` is the property `match` of the source and `id` is
absent (`none`) when the property is not set. -/
structure Item where
  match_ : String
  id : Option String
deriving DecidableEq

/-- The object resolved by `parseData`. -/
structure RaeResult where
  multipleMatches : Bool
  items : List Item
deriving DecidableEq

/-- The callback of the `else` branch for one anchor: `.replace` on an absent `href`
throws the `TypeError` of the engine. -/
def anchorItem (P : Platform) (a : Anchor) : Except Thrown Item :=
  match a.href with
  | none => .error (.error P.replaceFault)
  | some href => .ok { match_ := a.text, id := some (replace href RAE_FETCH_ACTION "") }

/-- The loop `.each` with a callback that may throw: it stops at the first throw. -/
def eachItem (P : Platform) : List Anchor → Except Thrown (List Item)
  | [] => .ok []
  | a :: rest =>
    match anchorItem P a with
    | .error fault => .error fault
    | .ok item =>
      match eachItem P rest with
      | .error fault => .error fault
      | .ok items => .ok (item :: items)

/-- The `try` block of `parseData`. -/
def parseDataTry (P : Platform) (domAsString : String) :
    Except Thrown RaeResult × List Effect :=
  match P.load domAsString with
  | .error fault => (.error fault, [.load domAsString])
  | .ok doc =>
    let multipleMatches := !(doc.bodyListAnchors.length == 0)
    if !multipleMatches then
      (.ok { multipleMatches := multipleMatches,
             items := doc.bodyParagraphs.map fun t => { match_ := t, id := none } },
        [.load domAsString])
    else
      match eachItem P doc.bodyListAnchors with
      | .error fault => (.error fault, [.load domAsString])
      | .ok items =>
        (.ok { multipleMatches := multipleMatches, items := items }, [.load domAsString])

/-- The executor built by `parseData`. -/
def parseData (P : Platform) (domAsString : String) :
    Except JsError RaeResult × List Effect :=
  match parseDataTry P domAsString with
  | (.error error, calls) => (.error (thrownBy (ParserError error)), calls)
  | (.ok result, calls) => (.ok result, calls)

def parseAuthData (P : Platform) (domAsString : String) :
    Except JsError JsObject × List Effect :=
  parseAuth P domAsString

def parseRaeData (P : Platform) (domAsString : String) :
    Except JsError RaeResult × List Effect :=
  parseData P domAsString

/-! ## request -/

structure RequestOptions where
  endpoint : String
  action : String
deriving DecidableEq

/-- The default value of the parameter `options` of `request`. -/
def defaultOptions : RequestOptions :=
  { endpoint := RAE_OFFICIAL_HTTP_ENDPOINT, action := RAE_SEARCH_ACTION }

/-- The address both calls of `request` go to; `encodeURI(word)` converts `word` to a
string before any call is made, so `word` is a value with a string conversion. -/
def requestUrl (P : Platform) (word : JsVal) (options : RequestOptions) : String :=
  options.endpoint ++ options.action ++ P.encodeURI word.toStr

/-- The arguments of the first call, `fetch(url, { method: 'GET' })`. -/
def getCall (url : String) : Request :=
  { url := url, method := "GET", body := none }

/-- The arguments of the second call, `fetch(url, { method: 'POST', body })`. -/
def postCall (url body : String) : Request :=
  { url := url, method := "POST", body := some body }

def request (P : Platform) (word : JsVal) (options : RequestOptions) :
    Except JsError RaeResult × List Effect :=
  let getReq := getCall (requestUrl P word options)
  match P.fetch getReq with
  | .error fault => (.error fault, [.fetch getReq])
  | .ok HTTPRaeAuthResponse =>
    if HTTPRaeAuthResponse.status ≠ 200 then
      (.error (NotFoundError word), [.fetch getReq])
    else
      match parseAuthData P HTTPRaeAuthResponse.text with
      | (.error error, calls) => (.error error, .fetch getReq :: calls)
      | (.ok HTTPRaeAuthData, calls) =>
        let postReq := postCall (requestUrl P word options) (toFormData HTTPRaeAuthData)
        match P.fetch postReq with
        | .error fault => (.error fault, .fetch getReq :: calls ++ [.fetch postReq])
        | .ok HTTPRaeDataResponse =>
          if HTTPRaeDataResponse.status ≠ 200 then
            (.error (NotFoundError word), .fetch getReq :: calls ++ [.fetch postReq])
          else
            match parseRaeData P HTTPRaeDataResponse.text with
            | (parsedRaeData, calls2) =>
              (parsedRaeData, .fetch getReq :: calls ++ .fetch postReq :: calls2)

/-! ## http/index -/

/-- The method `search`: the executor runs inside `try`, so a fault thrown while the error
is built is rejected in its place.  A word that passes `isAWord` is a string or a `String`
object; for a value without string conversion `request` would throw on `encodeURI(word)`
before any call. -/
def HTTPRaeClient.search (P : Platform) (word : JsAny) :
    Except JsError RaeResult × List Effect :=
  if !isAWord word then (.error (thrownBy (NotValidWordError word)), [])
  else
    match word with
    | .val w => request P w defaultOptions
    | .unprintable fault => (.error fault, [])

def HTTPRaeClient.fetch (P : Platform) (id : JsVal) :
    Except JsError RaeResult × List Effect :=
  request P id { action := RAE_FETCH_ACTION, endpoint := RAE_OFFICIAL_HTTP_ENDPOINT }

/-- Whether a platform call is a network call. -/
def Effect.isFetch : Effect → Bool
  | .fetch _ => true
  | _ => false

/-! ## Sample platforms and documents -/

/-- A platform whose transport answers every request with `status`, whose GET answer
loads as `authDoc` and whose POST answer loads as `dataDoc`; the challenge evaluates to
the string `c0de`. -/
def samplePlatform (status : Nat) (authDoc dataDoc : Document) : Platform where
  fetch req :=
    .ok { status := status,
          text := if req.method = "GET" then "challenge page" else "result page" }
  load domAsString := .ok (if domAsString = "challenge page" then authDoc else dataDoc)
  run _ := .ok (.str "c0de")
  encodeURI word := word
  replaceFault := ⟨"Cannot read properties of undefined (reading 'replace')"⟩

/-- A platform on which the markup library and the evaluation of the challenge fail as
given (`none`: no failure of `load`, which then yields `doc`). -/
def faultyPlatform (loadFault : Option Thrown) (runFault : Thrown) (doc : Document) :
    Platform where
  fetch _ := .ok { status := 200, text := "page" }
  load _ :=
    match loadFault with
    | some fault => .error fault
    | none => .ok doc
  run _ := .error runFault
  encodeURI word := word
  replaceFault := ⟨"Cannot read properties of undefined (reading 'replace')"⟩

/-- The scripts of a challenge page: the second one holds the challenge. -/
def sampleScripts : List String :=
  ["var a = 1;",
   "var x; function challenge()\x7b document.forms[0].elements[1].value=\"c0de\"; \x7d"]

/-- A challenge page with the given inputs. -/
def authDocWith (inputs : List InputElement) : Document :=
  { scripts := sampleScripts, bodyInputs := inputs, bodyListAnchors := [],
    bodyParagraphs := [] }

/-- A challenge page with three inputs of which the second has no value. -/
def sampleAuthDoc : Document :=
  authDocWith [{ name := some "TS", value := some "017" },
               { name := some "code", value := none },
               { name := some "go", value := some "1x" }]

/-- A result page with two paragraphs and no list. -/
def sampleEntryDoc : Document :=
  { scripts := [], bodyInputs := [], bodyListAnchors := [],
    bodyParagraphs := ["1. m. Primera acepcion.", "2. m. Segunda acepcion."] }

/-- A result page with a disambiguation list of three anchors. -/
def sampleListDoc : Document :=
  { scripts := [], bodyInputs := [],
    bodyListAnchors := [{ text := "haber1", href := some "fetch?id=JvGWgMw" },
                        { text := "haber2", href := some "fetch?id=JvHBgNx" },
                        { text := "haber3", href := some "fetch?id=JvIDhPy" }],
    bodyParagraphs := ["ignored"] }

/-- A page without any script element. -/
def noScriptDoc : Document :=
  { scripts := [], bodyInputs := [{ name := some "code", value := none }],
    bodyListAnchors := [], bodyParagraphs := ["text"] }

/-- A challenge page whose challenge throws `null` before it reaches the assignment. -/
def nullThrowDoc : Document :=
  { scripts := ["var a = 1;",
      "function challenge()\x7b throw null; document.forms[0].elements[1].value=1; \x7d"],
    bodyInputs := [{ name := some "code", value := none }],
    bodyListAnchors := [], bodyParagraphs := [] }

/-- A result page whose only list anchor has the given `href`. -/
def listDocWith (href : Option String) : Document :=
  { scripts := [], bodyInputs := [],
    bodyListAnchors := [{ text := "haber", href := href }],
    bodyParagraphs := [] }

/-! ## Objects and their keys -/

theorem get_put_same (obj : JsObject) (key : String) (v : JsVal) :
    (obj.put key v).get key = v := by
  induction obj with
  | nil => simp [JsObject.put, JsObject.get]
  | cons p rest ih =>
    obtain ⟨k, w⟩ := p
    by_cases h : k = key
    · simp [JsObject.put, JsObject.get, h]
    · simp [JsObject.put, JsObject.get, h, ih]

theorem get_put_other (obj : JsObject) (key other : String) (v : JsVal) (h : other ≠ key) :
    (obj.put key v).get other = obj.get other := by
  induction obj with
  | nil => simp [JsObject.put, JsObject.get, h.symm]
  | cons p rest ih =>
    obtain ⟨k, w⟩ := p
    by_cases hk : k = key
    · subst hk
      simp [JsObject.put, JsObject.get, h.symm]
    · by_cases ho : k = other
      · subst ho
        simp [JsObject.put, JsObject.get, hk]
      · simp [JsObject.put, JsObject.get, hk, ho, ih]

theorem get_set_same (obj : JsObject) (key : String) (v : JsVal) (h : key ≠ "__proto__") :
    (obj.set key v).get key = v := by
  simp [JsObject.set, h, get_put_same]

theorem get_set_other (obj : JsObject) (key other : String) (v : JsVal) (h : other ≠ key) :
    (obj.set key v).get other = obj.get other := by
  unfold JsObject.set
  split
  · rfl
  · exact get_put_other obj key other v h

theorem keys_put_new (obj : JsObject) (key : String) (v : JsVal)
    (h : key ∉ obj.map Prod.fst) :
    (obj.put key v).map Prod.fst = obj.map Prod.fst ++ [key] := by
  induction obj with
  | nil => rfl
  | cons p rest ih =>
    obtain ⟨k, w⟩ := p
    have hk : k ≠ key := by
      intro e; apply h; simp [e]
    have hr : key ∉ rest.map Prod.fst := by
      intro e; apply h; simp only [List.map_cons, List.mem_cons]; exact Or.inr e
    simp [JsObject.put, hk, ih hr]

theorem collectInputs_foldl_get (code : JsVal) (post : List InputElement) (acc : JsObject)
    (key : String) (h : ∀ e ∈ post, propertyKey e.name ≠ key) :
    (post.foldl (fun formData el =>
      formData.set (propertyKey el.name) (valueOr el.value code)) acc).get key = acc.get key := by
  induction post generalizing acc with
  | nil => rfl
  | cons e rest ih =>
    simp only [List.foldl_cons]
    rw [ih _ (fun x hx => h x (List.mem_cons_of_mem _ hx))]
    exact get_set_other acc _ key _ (fun heq => h e (List.mem_cons_self _ _) heq.symm)

theorem collectInputs_get (code : JsVal) (pre post : List InputElement) (el : InputElement)
    (hproto : propertyKey el.name ≠ "__proto__")
    (hlast : ∀ e ∈ post, propertyKey e.name ≠ propertyKey el.name) :
    (collectInputs (pre ++ el :: post) code).get (propertyKey el.name) =
      valueOr el.value code := by
  unfold collectInputs
  rw [List.foldl_append, List.foldl_cons, collectInputs_foldl_get code post _ _ hlast]
  exact get_set_same _ _ _ hproto

theorem collectInputs_foldl_keys (code : JsVal) (inputs : List InputElement) (acc : JsObject)
    (hnodup : (acc.map Prod.fst ++ inputs.map fun el => propertyKey el.name).Nodup)
    (hproto : ∀ el ∈ inputs, propertyKey el.name ≠ "__proto__") :
    (inputs.foldl (fun formData el =>
      formData.set (propertyKey el.name) (valueOr el.value code)) acc).map Prod.fst =
      acc.map Prod.fst ++ inputs.map fun el => propertyKey el.name := by
  induction inputs generalizing acc with
  | nil => simp
  | cons e rest ih =>
    simp only [List.foldl_cons, List.map_cons]
    have hnew : propertyKey e.name ∉ acc.map Prod.fst := by
      intro hmem
      have := List.nodup_append.mp hnodup
      exact this.2.2 hmem (by simp)
    have hset : (acc.set (propertyKey e.name) (valueOr e.value code)).map Prod.fst =
        acc.map Prod.fst ++ [propertyKey e.name] := by
      simp only [JsObject.set, if_neg (hproto e (List.mem_cons_self _ _))]
      exact keys_put_new acc _ _ hnew
    rw [ih]
    · rw [hset]; simp
    · rw [hset]; simpa using hnodup
    · exact fun x hx => hproto x (List.mem_cons_of_mem _ hx)

theorem collectInputs_keys (code : JsVal) (inputs : List InputElement)
    (hnodup : (inputs.map fun el => propertyKey el.name).Nodup)
    (hproto : ∀ el ∈ inputs, propertyKey el.name ≠ "__proto__") :
    (collectInputs inputs code).map Prod.fst = inputs.map fun el => propertyKey el.name := by
  have := collectInputs_foldl_keys code inputs [] (by simpa using hnodup) hproto
  simpa [collectInputs] using this

theorem keys_no_index (obj : JsObject)
    (h : ∀ k ∈ obj.map Prod.fst, arrayIndex? k = none) :
    Object.keys obj = obj.map Prod.fst := by
  unfold Object.keys
  have h1 : (obj.map Prod.fst).filter (fun k => (arrayIndex? k).isSome) = [] := by
    rw [List.filter_eq_nil_iff]
    intro k hk
    simp [h k hk]
  have h2 : (obj.map Prod.fst).filter (fun k => (arrayIndex? k).isNone) = obj.map Prod.fst := by
    rw [List.filter_eq_self]
    intro k hk
    simp [h k hk]
  rw [h1, h2]
  rfl

theorem get_of_mem (obj : JsObject) (hnodup : (obj.map Prod.fst).Nodup)
    (p : String × JsVal) (hp : p ∈ obj) : obj.get p.1 = p.2 := by
  induction obj with
  | nil => simp at hp
  | cons q rest ih =>
    obtain ⟨k, w⟩ := q
    simp only [List.map_cons, List.nodup_cons] at hnodup
    rcases List.mem_cons.mp hp with rfl | hmem
    · simp [JsObject.get]
    · have hne : k ≠ p.1 := by
        intro e
        apply hnodup.1
        rw [e]
        exact List.mem_map_of_mem Prod.fst hmem
      simp [JsObject.get, hne, ih hnodup.2 hmem]

/-! ## Parser lemmas -/

theorem data_nil_iff (s : String) : s.data = [] ↔ s = "" := by
  constructor
  · intro h; cases s; simp at h; subst h; rfl
  · intro h; subst h; rfl

theorem wordTest_false_iff (s : String) :
    (isString (.val (.str s)) && !isEmpty s && wordRegexTest s) = false ↔
      (s = "" ∨ ∃ c ∈ s.data, wordChar c = false) := by
  simp only [isString, isEmpty, wordRegexTest, Bool.true_and]
  rw [← data_nil_iff]
  by_cases h0 : s.data = []
  · simp [h0]
  · simp [h0]

theorem isAWord_false_iff (term : JsAny) :
    isAWord term = false ↔
      (isString term = false ∨
        ∃ s, (term = .val (.str s) ∨ term = .val (.strObject s)) ∧
          (s = "" ∨ ∃ c ∈ s.data, wordChar c = false)) := by
  cases term with
  | val v =>
    cases v with
    | str s =>
      rw [show isAWord (.val (.str s)) =
        (isString (.val (.str s)) && !isEmpty s && wordRegexTest s) from rfl,
        wordTest_false_iff]
      simp [isString]
    | strObject s =>
      rw [show isAWord (.val (.strObject s)) =
        (isString (.val (.str s)) && !isEmpty s && wordRegexTest s) from rfl,
        wordTest_false_iff]
      simp [isString]
    | other shown => simp [isAWord, isString]
  | unprintable fault => simp [isAWord, isString]

theorem parseAuthTry_calls (P : Platform) (d : String) :
    (parseAuthTry P d).2.filter Effect.isFetch = [] := by
  unfold parseAuthTry
  repeat (any_goals (first | split | dsimp only))
  all_goals rfl

theorem parseAuth_calls (P : Platform) (d : String) :
    (parseAuth P d).2.filter Effect.isFetch = [] := by
  have h := parseAuthTry_calls P d
  unfold parseAuth
  split <;> rename_i heq <;> rw [heq] at h <;> exact h

theorem parseDataTry_calls (P : Platform) (d : String) :
    (parseDataTry P d).2.filter Effect.isFetch = [] := by
  unfold parseDataTry
  repeat (any_goals (first | split | dsimp only))
  all_goals rfl

theorem parseData_calls (P : Platform) (d : String) :
    (parseData P d).2.filter Effect.isFetch = [] := by
  have h := parseDataTry_calls P d
  unfold parseData
  split <;> rename_i heq <;> rw [heq] at h <;> exact h

theorem eachItem_missing_href (anchors : List Anchor)
    (P : Platform) (h : ∃ a ∈ anchors, a.href = none) :
    eachItem P anchors = .error (.error P.replaceFault) := by
  induction anchors with
  | nil => simp at h
  | cons a rest ih =>
    unfold eachItem
    cases ha : a.href with
    | none => simp [anchorItem, ha]
    | some href =>
      have hrest : ∃ b ∈ rest, b.href = none := by
        rcases h with ⟨b, hb, hn⟩
        rcases List.mem_cons.mp hb with rfl | hb
        · rw [ha] at hn; cases hn
        · exact ⟨b, hb, hn⟩
      simp [anchorItem, ha, ih hrest]

theorem eachItem_all_href (anchors : List Anchor) (P : Platform)
    (h : ∀ a ∈ anchors, a.href ≠ none) :
    eachItem P anchors = .ok (anchors.map fun a =>
      { match_ := a.text, id := some (replace (a.href.getD "") RAE_FETCH_ACTION "") }) := by
  induction anchors with
  | nil => rfl
  | cons a rest ih =>
    unfold eachItem
    cases ha : a.href with
    | none => exact absurd ha (h a (List.mem_cons_self _ _))
    | some href =>
      have hrest : ∀ b ∈ rest, b.href ≠ none := fun b hb => h b (List.mem_cons_of_mem _ hb)
      simp [anchorItem, ha, ih hrest]

theorem indexOf_empty (crc : String) (h : crc.data.isEmpty = true) :
    indexOf crc "function challenge()" = -1 := by
  have : crc.data = [] := by simpa using h
  unfold indexOf
  rw [this]
  decide

theorem parseAuthTry_no_challenge (P : Platform) (domAsString : String) (doc : Document)
    (hload : P.load domAsString = .ok doc)
    (habsent : doc.scripts.length < 2 ∨
      ∃ crc, doc.scripts[1]? = some crc ∧ indexOf crc "function challenge()" < 0) :
    parseAuthTry P domAsString = (.error (.error NoChallengeScriptFoundError), [.load domAsString]) := by
  unfold parseAuthTry
  rw [hload]
  rcases habsent with h | ⟨crc, hcrc, hidx⟩
  · have : doc.scripts[1]? = none := List.getElem?_eq_none (by omega)
    simp [this]
  · simp only [hcrc]
    split
    · rfl
    · simp [hidx]

theorem parseAuth_ok_inv (P : Platform) (d : String) (doc : Document) (form : JsObject)
    (hload : P.load d = .ok doc) (hok : (parseAuth P d).1 = .ok form) :
    ∃ crc code, doc.scripts[1]? = some crc ∧ 0 ≤ indexOf crc "function challenge()" ∧
      P.run (challengeBody crc (indexOf crc "function challenge()")) = .ok code ∧
      form = collectInputs doc.bodyInputs code := by
  cases hs : doc.scripts[1]? with
  | none => simp [parseAuth, parseAuthTry, hload, hs] at hok
  | some crc =>
    by_cases hemp : crc.data.isEmpty = true
    · simp [parseAuth, parseAuthTry, hload, hs, hemp] at hok
    · by_cases hpos : indexOf crc "function challenge()" < 0
      · simp only [parseAuth, parseAuthTry, hload, hs, if_neg hemp, if_pos hpos] at hok
        simp at hok
      · cases hrun : P.run (challengeBody crc (indexOf crc "function challenge()")) with
        | error fault =>
          simp only [parseAuth, parseAuthTry, hload, hs, if_neg hemp, if_neg hpos, hrun] at hok
          simp at hok
        | ok code =>
          simp only [parseAuth, parseAuthTry, hload, hs, if_neg hemp, if_neg hpos, hrun] at hok
          simp only [Except.ok.injEq] at hok
          exact ⟨crc, code, rfl, by omega, hrun, hok.symm⟩

theorem parseAuthTry_error_source (P : Platform) (d : String) (t : Thrown)
    (h : (parseAuthTry P d).1 = .error t) :
    t = .error NoChallengeScriptFoundError ∨ P.load d = .error t ∨
      ∃ doc crc, P.load d = .ok doc ∧ doc.scripts[1]? = some crc ∧
        P.run (challengeBody crc (indexOf crc "function challenge()")) = .error t := by
  unfold parseAuthTry at h
  cases hload : P.load d with
  | error fault =>
    rw [hload] at h
    simp only [Except.error.injEq] at h
    exact Or.inr (Or.inl (by rw [h]))
  | ok doc =>
    rw [hload] at h
    cases hs : doc.scripts[1]? with
    | none =>
      simp only [hs, Except.error.injEq] at h
      exact Or.inl h.symm
    | some crc =>
      simp only [hs] at h
      by_cases hemp : crc.data.isEmpty = true
      · simp only [if_pos hemp, Except.error.injEq] at h
        exact Or.inl h.symm
      · by_cases hpos : indexOf crc "function challenge()" < 0
        · simp only [if_neg hemp, if_pos hpos, Except.error.injEq] at h
          exact Or.inl h.symm
        · cases hrun : P.run (challengeBody crc (indexOf crc "function challenge()")) with
          | error fault =>
            simp only [if_neg hemp, if_neg hpos, hrun, Except.error.injEq] at h
            exact Or.inr (Or.inr ⟨doc, crc, rfl, hs, by rw [hrun, h]⟩)
          | ok code =>
            simp only [if_neg hemp, if_neg hpos, hrun] at h
            cases h

theorem parseDataTry_error_source (P : Platform) (d : String) (t : Thrown)
    (h : (parseDataTry P d).1 = .error t) :
    t = .error P.replaceFault ∨ P.load d = .error t := by
  unfold parseDataTry at h
  cases hload : P.load d with
  | error fault =>
    rw [hload] at h
    simp only [Except.error.injEq] at h
    exact Or.inr (by rw [h])
  | ok doc =>
    rw [hload] at h
    by_cases hnone : doc.bodyListAnchors = []
    · simp [hnone] at h
    · by_cases hmiss : ∃ a ∈ doc.bodyListAnchors, a.href = none
      · simp [hnone, eachItem_missing_href _ P hmiss] at h
        exact Or.inl h.symm
      · have hall : ∀ a ∈ doc.bodyListAnchors, a.href ≠ none := by
          intro a ha hn
          exact hmiss ⟨a, ha, hn⟩
        simp [hnone, eachItem_all_href _ P hall] at h

theorem parseAuth_error_inv (P : Platform) (d : String) (e : JsError)
    (h : (parseAuth P d).1 = .error e) :
    ∃ t, (parseAuthTry P d).1 = .error t ∧ e = thrownBy (ParserError t) := by
  unfold parseAuth at h
  split at h
  · rename_i t calls heq
    simp only [Except.error.injEq] at h
    exact ⟨t, by rw [heq], h.symm⟩
  · cases h

theorem parseData_error_inv (P : Platform) (d : String) (e : JsError)
    (h : (parseData P d).1 = .error e) :
    ∃ t, (parseDataTry P d).1 = .error t ∧ e = thrownBy (ParserError t) := by
  unfold parseData at h
  split at h
  · rename_i t calls heq
    simp only [Except.error.injEq] at h
    exact ⟨t, by rw [heq], h.symm⟩
  · cases h

theorem thrownBy_readable (t : Thrown) (hread : ∀ fault, t ≠ .nullish fault) :
    ∃ text, thrownBy (ParserError t) = parserErrorWith text := by
  cases t with
  | error e => exact ⟨e.message, rfl⟩
  | nullish fault => exact absurd rfl (hread fault)

theorem quoted_ne (text rest other : String) (h : other.data.head? ≠ some '"') :
    "\"" ++ text ++ rest ≠ other := by
  intro heq
  apply h
  rw [← heq]
  simp [String.data_append]

/-! ## Claims -/

/-- Claim C1 fails as stated: for a term without string conversion, such as a symbol,
building `NotValidWordError(term)` throws and `search` rejects with that fault, which is
not a `NotValidWordError` of any value. -/
theorem search_rejects_invalid_word_counterexample :
    isAWord (.unprintable ⟨"Cannot convert a Symbol value to a string"⟩) = false ∧
      HTTPRaeClient.search (samplePlatform 200 sampleAuthDoc sampleEntryDoc)
          (.unprintable ⟨"Cannot convert a Symbol value to a string"⟩) =
        (.error ⟨"Cannot convert a Symbol value to a string"⟩, []) ∧
      NotValidWordError (.unprintable ⟨"Cannot convert a Symbol value to a string"⟩) =
        .error ⟨"Cannot convert a Symbol value to a string"⟩ ∧
      ∀ word : JsAny,
        NotValidWordError word ≠ .ok ⟨"Cannot convert a Symbol value to a string"⟩ := by
  refine ⟨rfl, rfl, rfl, ?_⟩
  intro word h
  cases word with
  | val v =>
    simp only [NotValidWordError, JsAny.toStr, Except.ok.injEq, JsError.mk.injEq] at h
    exact quoted_ne v.toStr _ _ (by decide) h
  | unprintable fault => cases h

/-- Claim C1, amended: a term fails `isAWord` exactly when `isString` rejects it, or it is
a string (or `String` object) that is empty or holds a character outside the letter class;
for every such term `search` rejects and makes no platform call at all, so neither the GET
nor the POST is issued; and when the term has a string conversion the rejection is
`NotValidWordError(term)`. -/
theorem search_rejects_invalid_word (P : Platform) (term : JsAny) :
    (isAWord term = false ↔
      (isString term = false ∨
        ∃ s, (term = .val (.str s) ∨ term = .val (.strObject s)) ∧
          (s = "" ∨ ∃ c ∈ s.data, wordChar c = false))) ∧
    (isAWord term = false →
      (HTTPRaeClient.search P term).2 = [] ∧
      (∃ e, (HTTPRaeClient.search P term).1 = .error e) ∧
      ∀ v, term = .val v →
        NotValidWordError term =
            .ok ⟨"\"" ++ v.toStr ++ "\" word param provided must be a valid string"⟩ ∧
          HTTPRaeClient.search P term =
            (.error ⟨"\"" ++ v.toStr ++ "\" word param provided must be a valid string"⟩,
              [])) := by
  refine ⟨isAWord_false_iff term, ?_⟩
  intro h
  have hs : HTTPRaeClient.search P term = (.error (thrownBy (NotValidWordError term)), []) := by
    simp [HTTPRaeClient.search, h]
  refine ⟨by rw [hs], ⟨_, by rw [hs]⟩, ?_⟩
  intro v hv
  subst hv
  exact ⟨rfl, by rw [hs]; rfl⟩

/-- Claim C1, amended, at the term `hola1`, which holds a digit. -/
theorem search_rejects_invalid_word_witness :
    isAWord (.val (.str "hola1")) = false ∧
      HTTPRaeClient.search (samplePlatform 200 sampleAuthDoc sampleEntryDoc)
          (.val (.str "hola1")) =
        (.error ⟨"\"hola1\" word param provided must be a valid string"⟩, []) :=
  ⟨by decide,
    (((search_rejects_invalid_word (samplePlatform 200 sampleAuthDoc sampleEntryDoc)
      (.val (.str "hola1"))).2 (by decide)).2.2 (.str "hola1") rfl).2⟩

/-- Claim C2: when the GET answer carries a status other than 200, `request` fails with
`NotFoundError(word)` and the GET is the only platform call made: no POST and no parser
call.  `search` on a valid term and `fetch` on any id are `request` with their options. -/
theorem request_get_failure (P : Platform) (word : JsVal) (options : RequestOptions)
    (resp : Response)
    (hget : P.fetch (getCall (requestUrl P word options)) = .ok resp)
    (hstatus : resp.status ≠ 200) :
    request P word options =
        (.error (NotFoundError word), [.fetch (getCall (requestUrl P word options))]) ∧
      (isAWord (.val word) = true → options = defaultOptions →
        HTTPRaeClient.search P (.val word) = request P word options) ∧
      (options = { endpoint := RAE_OFFICIAL_HTTP_ENDPOINT, action := RAE_FETCH_ACTION } →
        HTTPRaeClient.fetch P word = request P word options) := by
  refine ⟨?_, ?_, ?_⟩
  · simp [request, hget, hstatus]
  · intro hw ho
    simp [HTTPRaeClient.search, hw, ho]
  · intro ho
    simp [HTTPRaeClient.fetch, ho]

/-- Claim C2 on a transport answering 404. -/
theorem request_get_failure_witness :
    request (samplePlatform 404 sampleAuthDoc sampleEntryDoc) (.str "haber") defaultOptions =
      (.error ⟨"\"haber\" not found in RAE"⟩,
        [.fetch { url := "http://dle.rae.es/srv/search?w=haber", method := "GET",
                  body := none }]) :=
  (request_get_failure (samplePlatform 404 sampleAuthDoc sampleEntryDoc) (.str "haber")
    defaultOptions { status := 404, text := "challenge page" } rfl (by decide)).1

/-- Claim C3, as the code behaves: when the document has fewer than two scripts, or its
second script lacks the marker, `parseAuthData` rejects with the error that `ParserError`
builds from `NoChallengeScriptFoundError()`, which is a different error from
`NoChallengeScriptFoundError()` itself: the `throw` sits inside the `try` whose `catch`
wraps every error. -/
theorem parseAuthData_no_challenge_wrapped (P : Platform) (domAsString : String)
    (doc : Document) (hload : P.load domAsString = .ok doc)
    (habsent : doc.scripts.length < 2 ∨
      ∃ crc, doc.scripts[1]? = some crc ∧ indexOf crc "function challenge()" < 0) :
    parseAuthData P domAsString =
        (.error (parserErrorWith NoChallengeScriptFoundError.message),
          [.load domAsString]) ∧
      ParserError (.error NoChallengeScriptFoundError) =
        .ok (parserErrorWith NoChallengeScriptFoundError.message) ∧
      parserErrorWith NoChallengeScriptFoundError.message ≠ NoChallengeScriptFoundError := by
  refine ⟨?_, rfl, by decide⟩
  simp only [parseAuthData, parseAuth,
    parseAuthTry_no_challenge P domAsString doc hload habsent]
  rfl

/-- Claim C3 on a page without any script. -/
theorem parseAuthData_no_challenge_wrapped_witness :
    (parseAuthData (samplePlatform 200 noScriptDoc sampleEntryDoc) "challenge page").1 =
        .error ⟨"\"No challenge SCRIPT found!, It is possible due to RAE updated its API. Please raise an issue at https://github.com/Tsur/node-rae/issues\" parser error found. Please raise an issue at https://github.com/Tsur/node-rae/issues"⟩ ∧
      (parseAuthData (samplePlatform 200 noScriptDoc sampleEntryDoc) "challenge page").1 ≠
        .error NoChallengeScriptFoundError := by
  have h := parseAuthData_no_challenge_wrapped (samplePlatform 200 noScriptDoc sampleEntryDoc)
    "challenge page" noScriptDoc rfl (Or.inl (by decide))
  rw [h.1]
  refine ⟨rfl, ?_⟩
  intro hc
  injection hc with hc
  exact h.2.2 hc

/-- Claim C4 fails as stated: a list anchor without `href` makes `parseRaeData` reject, and
for an `href` that does not begin with `fetch?id=` the id put after `fetch?id=` is not the
original `href`. -/
theorem parseRaeData_anchors_counterexample :
    (parseRaeData (samplePlatform 200 sampleAuthDoc (listDocWith none)) "result page").1 =
        .error (parserErrorWith "Cannot read properties of undefined (reading 'replace')") ∧
      (parseRaeData (samplePlatform 200 sampleAuthDoc
          (listDocWith (some "/srv/fetch?id=JvGWgMw"))) "result page").1 =
        .ok { multipleMatches := true,
              items := [{ match_ := "haber", id := some "/srv/JvGWgMw" }] } ∧
      "fetch?id=" ++ "/srv/JvGWgMw" ≠ "/srv/fetch?id=JvGWgMw" :=
  ⟨rfl, rfl, by decide⟩

/-- Claim C4, amended: when the body holds one or more list anchors and each of them has an
`href`, `parseRaeData` resolves with `multipleMatches = true` and one item per anchor in
document order, whose `match` is the anchor text and whose `id` is the `href` with the
first occurrence of `fetch?id=` removed; for an `href` that starts with `fetch?id=` the id
is the rest of the `href`. -/
theorem parseRaeData_anchors (P : Platform) (domAsString : String) (doc : Document)
    (hload : P.load domAsString = .ok doc)
    (hsome : doc.bodyListAnchors ≠ [])
    (hhref : ∀ a ∈ doc.bodyListAnchors, a.href ≠ none) :
    parseRaeData P domAsString =
      (.ok { multipleMatches := true,
             items := doc.bodyListAnchors.map fun a =>
               { match_ := a.text,
                 id := some (replace (a.href.getD "") "fetch?id=" "") } },
        [.load domAsString]) ∧
    (∀ a ∈ doc.bodyListAnchors, ∀ rest : String, a.href = some ("fetch?id=" ++ rest) →
      replace (a.href.getD "") "fetch?id=" "" = rest) := by
  constructor
  · simp [parseRaeData, parseData, parseDataTry, hload, hsome,
      eachItem_all_href _ P hhref, RAE_FETCH_ACTION]
  · intro a _ rest ha
    rw [ha]
    cases rest with
    | mk cs =>
      show (⟨replaceFirst "fetch?id=".data "".data ("fetch?id=" ++ String.mk cs).data⟩ :
        String) = _
      simp [replaceFirst, String.append]

/-- Claim C4, amended, on a list of three anchors. -/
theorem parseRaeData_anchors_witness :
    parseRaeData (samplePlatform 200 sampleAuthDoc sampleListDoc) "result page" =
      (.ok { multipleMatches := true,
             items := [{ match_ := "haber1", id := some "JvGWgMw" },
                       { match_ := "haber2", id := some "JvHBgNx" },
                       { match_ := "haber3", id := some "JvIDhPy" }] },
        [.load "result page"]) :=
  (parseRaeData_anchors (samplePlatform 200 sampleAuthDoc sampleListDoc) "result page"
    sampleListDoc rfl (by decide) (by decide)).1

/-- Claim C5: when the body holds no list anchor, `parseRaeData` resolves with
`multipleMatches = false` and one item per paragraph in document order, carrying the
paragraph text and no id; without paragraphs the items are empty. -/
theorem parseRaeData_no_anchors (P : Platform) (domAsString : String) (doc : Document)
    (hload : P.load domAsString = .ok doc) (hnone : doc.bodyListAnchors = []) :
    parseRaeData P domAsString =
      (.ok { multipleMatches := false,
             items := doc.bodyParagraphs.map fun t => { match_ := t, id := none } },
        [.load domAsString]) ∧
    (doc.bodyParagraphs = [] →
      (parseRaeData P domAsString).1 = .ok { multipleMatches := false, items := [] }) := by
  have h : parseRaeData P domAsString =
      (.ok { multipleMatches := false,
             items := doc.bodyParagraphs.map fun t => { match_ := t, id := none } },
        [.load domAsString]) := by
    simp [parseRaeData, parseData, parseDataTry, hload, hnone]
  refine ⟨h, ?_⟩
  intro hp
  rw [h, hp]
  rfl

/-- Claim C5 on a page with two paragraphs. -/
theorem parseRaeData_no_anchors_witness :
    parseRaeData (samplePlatform 200 sampleAuthDoc sampleEntryDoc) "result page" =
      (.ok { multipleMatches := false,
             items := [{ match_ := "1. m. Primera acepcion.", id := none },
                       { match_ := "2. m. Segunda acepcion.", id := none }] },
        [.load "result page"]) :=
  (parseRaeData_no_anchors (samplePlatform 200 sampleAuthDoc sampleEntryDoc) "result page"
    sampleEntryDoc rfl rfl).1

/-- Claim C6 fails as stated: two inputs sharing a name yield one entry, an input named
with an array index is enumerated before the inputs that precede it, and an input named
`__proto__` yields no entry. -/
theorem parseAuthData_entries_counterexample :
    (parseAuthData (samplePlatform 200
        (authDocWith [{ name := some "a", value := some "1" },
                      { name := some "a", value := some "2" }]) sampleEntryDoc)
        "challenge page").1 = .ok [("a", .str "2")] ∧
      ((parseAuthData (samplePlatform 200
        (authDocWith [{ name := some "b", value := some "x" },
                      { name := some "1", value := some "y" }]) sampleEntryDoc)
        "challenge page").1 = .ok [("b", .str "x"), ("1", .str "y")] ∧
        Object.keys [("b", .str "x"), ("1", .str "y")] = ["1", "b"]) ∧
      (parseAuthData (samplePlatform 200
        (authDocWith [{ name := some "__proto__", value := some "x" }]) sampleEntryDoc)
        "challenge page").1 = .ok [] :=
  ⟨rfl, ⟨rfl, by decide⟩, rfl⟩

/-- Claim C6, amended: when `parseAuthData` succeeds on a document whose inputs have pairwise
distinct keys (the `name`, or `undefined` for an input without one), none of them
`__proto__`, the form has exactly one entry per input, keyed by that key, created in the
document order of the inputs; when in addition no key is an array index, the order of
`Object.keys` is that document order. -/
theorem parseAuthData_one_entry_per_input (P : Platform) (domAsString : String)
    (doc : Document) (form : JsObject)
    (hload : P.load domAsString = .ok doc)
    (hok : (parseAuthData P domAsString).1 = .ok form)
    (hdistinct : (doc.bodyInputs.map fun el => propertyKey el.name).Nodup)
    (hproto : ∀ el ∈ doc.bodyInputs, propertyKey el.name ≠ "__proto__") :
    form.length = doc.bodyInputs.length ∧
      form.map Prod.fst = (doc.bodyInputs.map fun el => propertyKey el.name) ∧
      ((∀ el ∈ doc.bodyInputs, arrayIndex? (propertyKey el.name) = none) →
        Object.keys form = (doc.bodyInputs.map fun el => propertyKey el.name)) := by
  obtain ⟨crc, code, _, _, _, hform⟩ := parseAuth_ok_inv P domAsString doc form hload hok
  have hkeys := collectInputs_keys code doc.bodyInputs hdistinct hproto
  rw [← hform] at hkeys
  refine ⟨?_, hkeys, ?_⟩
  · have := congrArg List.length hkeys
    simpa using this
  · intro hplain
    rw [keys_no_index form, hkeys]
    intro k hk
    rw [hkeys] at hk
    obtain ⟨el, hel, rfl⟩ := List.mem_map.mp hk
    exact hplain el hel

/-- Claim C6, amended, on the sample challenge page and its three inputs. -/
theorem parseAuthData_one_entry_per_input_witness :
    (parseAuthData (samplePlatform 200 sampleAuthDoc sampleEntryDoc) "challenge page").1 =
        .ok [("TS", .str "017"), ("code", .str "c0de"), ("go", .str "1x")] ∧
      Object.keys [("TS", JsVal.str "017"), ("code", .str "c0de"), ("go", .str "1x")] =
        ["TS", "code", "go"] :=
  ⟨rfl,
    (parseAuthData_one_entry_per_input (samplePlatform 200 sampleAuthDoc sampleEntryDoc)
      "challenge page" sampleAuthDoc
      [("TS", .str "017"), ("code", .str "c0de"), ("go", .str "1x")]
      rfl rfl (by decide) (by decide)).2.2 (by decide)⟩

/-- Claim C7 fails as stated: an input with the explicit value `""` receives the challenge
code, and the value of an input is replaced by that of a later input of the same name. -/
theorem parseAuthData_entry_value_counterexample :
    (parseAuthData (samplePlatform 200
        (authDocWith [{ name := some "code", value := some "" }]) sampleEntryDoc)
        "challenge page").1 = .ok [("code", .str "c0de")] ∧
      (parseAuthData (samplePlatform 200
        (authDocWith [{ name := some "a", value := some "1" },
                      { name := some "a", value := some "2" }]) sampleEntryDoc)
        "challenge page").1 = .ok [("a", .str "2")] ∧
      JsObject.get [("code", .str "c0de")] "code" ≠ .str "" ∧
      JsObject.get [("a", .str "2")] "a" ≠ .str "1" :=
  ⟨rfl, rfl, by decide, by decide⟩

/-- Claim C7, amended: when `parseAuthData` succeeds, the second script exists and the
snippet built from it (its text from `function challenge()` onward with the assignment
rewritten into `return `, after a leading `return `) evaluates to a challenge code; for
every input whose key is not `__proto__` and is not used by a later input, the entry of
that key is the `value` attribute when it is present and not empty, and the challenge code
when it is absent or empty. -/
theorem parseAuthData_entry_value (P : Platform) (domAsString : String)
    (doc : Document) (form : JsObject)
    (hload : P.load domAsString = .ok doc)
    (hok : (parseAuthData P domAsString).1 = .ok form) :
    ∃ crc code, doc.scripts[1]? = some crc ∧
      P.run ("return " ++ replace (substr crc (indexOf crc "function challenge()"))
        "document.forms[0].elements[1].value=" "return ") = .ok code ∧
      ∀ pre el post, doc.bodyInputs = pre ++ el :: post →
        propertyKey el.name ≠ "__proto__" →
        (∀ e ∈ post, propertyKey e.name ≠ propertyKey el.name) →
        (∀ v, el.value = some v → v ≠ "" → form.get (propertyKey el.name) = .str v) ∧
        (el.value = none ∨ el.value = some "" → form.get (propertyKey el.name) = code) := by
  obtain ⟨crc, code, hcrc, _, hrun, hform⟩ := parseAuth_ok_inv P domAsString doc form hload hok
  refine ⟨crc, code, hcrc, hrun, ?_⟩
  intro pre el post hsplit hproto hlast
  have hget := collectInputs_get code pre post el hproto hlast
  rw [← hsplit, ← hform] at hget
  constructor
  · intro v hv hne
    rw [hget, hv]
    have : ¬ v.data.isEmpty = true := by
      intro hemp
      apply hne
      cases v
      simp at hemp
      subst hemp
      rfl
    simp [valueOr, this]
  · intro hv
    rw [hget]
    rcases hv with hv | hv <;> rw [hv] <;> rfl

/-- Claim C7, amended, on the sample challenge page: the input without value receives the
code and the first input keeps its value. -/
theorem parseAuthData_entry_value_witness :
    (parseAuthData (samplePlatform 200 sampleAuthDoc sampleEntryDoc) "challenge page").1 =
        .ok [("TS", .str "017"), ("code", .str "c0de"), ("go", .str "1x")] ∧
      JsObject.get [("TS", JsVal.str "017"), ("code", .str "c0de"), ("go", .str "1x")] "code" =
        .str "c0de" ∧
      JsObject.get [("TS", JsVal.str "017"), ("code", .str "c0de"), ("go", .str "1x")] "TS" =
        .str "017" := by
  obtain ⟨crc, code, _, hrun, h⟩ :=
    parseAuthData_entry_value (samplePlatform 200 sampleAuthDoc sampleEntryDoc)
      "challenge page" sampleAuthDoc
      [("TS", .str "017"), ("code", .str "c0de"), ("go", .str "1x")] rfl rfl
  have hcode : code = .str "c0de" := by
    have : (Except.ok (JsVal.str "c0de") : Except Thrown JsVal) = .ok code := hrun
    injection this with this
    exact this.symm
  subst hcode
  exact ⟨rfl,
    (h [{ name := some "TS", value := some "017" }] { name := some "code", value := none }
      [{ name := some "go", value := some "1x" }] rfl (by decide) (by decide)).2 (Or.inl rfl),
    (h [] { name := some "TS", value := some "017" }
      [{ name := some "code", value := none }, { name := some "go", value := some "1x" }]
      rfl (by decide) (by decide)).1 "017" rfl (by decide)⟩

/-- Claim C8 fails as stated: a key that is an array index is serialised before the keys
created ahead of it, and array-index keys come in numeric order. -/
theorem toFormData_counterexample :
    toFormData [("b", .str "x"), ("1", .str "y")] = "1=y&b=x" ∧
      toFormData [("b", .str "x"), ("1", .str "y")] ≠ "b=x&1=y" ∧
      toFormData [("10", .str "x"), ("9", .str "y")] = "9=y&10=x" :=
  ⟨by decide, by decide, by decide⟩

/-- Claim C8, amended: for a form (its keys are distinct, as in every object) none of whose
keys is an array index, `toFormData` is the entries in creation order, each written
`key=value` with the value converted to a string and nothing escaped, joined by `&`; the
empty form gives the empty string. -/
theorem toFormData_plain_keys (obj : JsObject)
    (hdistinct : (obj.map Prod.fst).Nodup)
    (hplain : ∀ k ∈ obj.map Prod.fst, arrayIndex? k = none) :
    toFormData obj = "&".intercalate (obj.map fun p => p.1 ++ "=" ++ p.2.toStr) ∧
      toFormData [] = "" := by
  refine ⟨?_, by decide⟩
  unfold toFormData join
  rw [keys_no_index obj hplain, List.map_map]
  congr 1
  apply List.map_congr_left
  intro p hp
  simp [get_of_mem obj hdistinct p hp]

/-- Claim C8, amended, on a form of three entries. -/
theorem toFormData_plain_keys_witness :
    toFormData [("TS", .str "017"), ("code", .str "c0de"), ("go", .str "1x")] =
      "TS=017&code=c0de&go=1x" :=
  (toFormData_plain_keys [("TS", .str "017"), ("code", .str "c0de"), ("go", .str "1x")]
    (by decide) (by decide)).1

/-- Claim C9: when the GET and the POST both answer 200 and both parsers succeed, `request`
resolves to the output of `parseRaeData` on the POST answer; its network calls are exactly
the GET to `endpoint + action + encodeURI(word)` followed by the POST to the same address
with body `toFormData` of the form parsed from the GET answer.  `search` runs `request` with
action `search?w=` and `fetch` with action `fetch?id=`, on the same endpoint. -/
theorem request_success (P : Platform) (word : JsVal) (options : RequestOptions)
    (authResp dataResp : Response) (form : JsObject) (result : RaeResult)
    (calls1 calls2 : List Effect)
    (hget : P.fetch (getCall (requestUrl P word options)) = .ok authResp)
    (hstatus1 : authResp.status = 200)
    (hauth : parseAuthData P authResp.text = (.ok form, calls1))
    (hpost : P.fetch (postCall (requestUrl P word options) (toFormData form)) = .ok dataResp)
    (hstatus2 : dataResp.status = 200)
    (hdata : parseRaeData P dataResp.text = (.ok result, calls2)) :
    request P word options =
        (.ok result,
          .fetch (getCall (requestUrl P word options)) :: calls1 ++
            .fetch (postCall (requestUrl P word options) (toFormData form)) :: calls2) ∧
      (request P word options).2.filter Effect.isFetch =
        [.fetch { url := options.endpoint ++ options.action ++ P.encodeURI word.toStr,
                  method := "GET", body := none },
         .fetch { url := options.endpoint ++ options.action ++ P.encodeURI word.toStr,
                  method := "POST", body := some (toFormData form) }] ∧
      (isAWord (.val word) = true →
        HTTPRaeClient.search P (.val word) =
          request P word { endpoint := RAE_OFFICIAL_HTTP_ENDPOINT, action := "search?w=" }) ∧
      HTTPRaeClient.fetch P word =
        request P word { endpoint := RAE_OFFICIAL_HTTP_ENDPOINT, action := "fetch?id=" } := by
  have hreq : request P word options =
        (.ok result,
          .fetch (getCall (requestUrl P word options)) :: calls1 ++
            .fetch (postCall (requestUrl P word options) (toFormData form)) :: calls2) := by
    simp [request, hget, hstatus1, hauth, hpost, hstatus2, hdata]
  have h1 : calls1.filter Effect.isFetch = [] := by
    have := parseAuth_calls P authResp.text
    rw [show parseAuth P authResp.text = parseAuthData P authResp.text from rfl, hauth] at this
    exact this
  have h2 : calls2.filter Effect.isFetch = [] := by
    have := parseData_calls P dataResp.text
    rw [show parseData P dataResp.text = parseRaeData P dataResp.text from rfl, hdata] at this
    exact this
  refine ⟨hreq, ?_, ?_, ?_⟩
  · rw [hreq]
    simp [List.filter_cons, List.filter_append, Effect.isFetch, h1, h2, requestUrl, getCall,
      postCall]
  · intro hw
    simp [HTTPRaeClient.search, hw, defaultOptions, RAE_SEARCH_ACTION]
  · simp [HTTPRaeClient.fetch, RAE_FETCH_ACTION]

/-- Claim C9 on the search of `haber` answered by a challenge page and then a
disambiguation list. -/
theorem request_success_witness :
    request (samplePlatform 200 sampleAuthDoc sampleListDoc) (.str "haber") defaultOptions =
      (.ok { multipleMatches := true,
             items := [{ match_ := "haber1", id := some "JvGWgMw" },
                       { match_ := "haber2", id := some "JvHBgNx" },
                       { match_ := "haber3", id := some "JvIDhPy" }] },
        [.fetch { url := "http://dle.rae.es/srv/search?w=haber", method := "GET",
                  body := none },
         .load "challenge page",
         .run "return function challenge()\x7b return \"c0de\"; \x7d",
         .fetch { url := "http://dle.rae.es/srv/search?w=haber", method := "POST",
                  body := some "TS=017&code=c0de&go=1x" },
         .load "result page"]) :=
  (request_success (samplePlatform 200 sampleAuthDoc sampleListDoc) (.str "haber")
    defaultOptions { status := 200, text := "challenge page" }
    { status := 200, text := "result page" }
    [("TS", .str "017"), ("code", .str "c0de"), ("go", .str "1x")]
    { multipleMatches := true,
      items := [{ match_ := "haber1", id := some "JvGWgMw" },
                { match_ := "haber2", id := some "JvHBgNx" },
                { match_ := "haber3", id := some "JvIDhPy" }] }
    [.load "challenge page", .run "return function challenge()\x7b return \"c0de\"; \x7d"]
    [.load "result page"] rfl rfl rfl rfl rfl rfl).1

/-- Claim C10 fails as stated: when the challenge throws `null`, reading `error.message`
inside the `catch` throws in turn and `parseAuthData` rejects with that raw fault, which is
not an error built by `ParserError`. -/
theorem parser_faults_wrapped_counterexample :
    parseAuthData
        (faultyPlatform none (.nullish ⟨"Cannot read properties of null (reading 'message')"⟩)
          nullThrowDoc) "page" =
      (.error ⟨"Cannot read properties of null (reading 'message')"⟩,
        [.load "page", .run "return function challenge()\x7b throw null; return 1; \x7d"]) ∧
      ∀ text : String,
        parserErrorWith text ≠ ⟨"Cannot read properties of null (reading 'message')"⟩ := by
  refine ⟨rfl, ?_⟩
  intro text h
  simp only [parserErrorWith, JsError.mk.injEq] at h
  exact quoted_ne text _ _ (by decide) h

/-- Claim C10, amended: a fault of the markup library whose message can be read makes both
parsers reject with the `ParserError` built from that message; so does, for `parseAuthData`,
such a fault raised while evaluating the located challenge snippet; a list anchor without
`href` makes `parseRaeData` reject with the `ParserError` built from the fault of
`.replace`.  When the markup library and the challenge snippet do not throw `null` or
`undefined`, every rejection of `parseAuthData` is an error built by `ParserError`, and so is
every rejection of `parseRaeData` when the markup library does not.  The message of the error
built holds the message read between quotes. -/
theorem parser_faults_wrapped (P : Platform) (domAsString : String) :
    (∀ e : JsError, P.load domAsString = .error (.error e) →
      (parseAuthData P domAsString).1 = .error (parserErrorWith e.message) ∧
      (parseRaeData P domAsString).1 = .error (parserErrorWith e.message)) ∧
    (∀ doc crc, ∀ e : JsError, P.load domAsString = .ok doc → doc.scripts[1]? = some crc →
      0 ≤ indexOf crc "function challenge()" →
      P.run (challengeBody crc (indexOf crc "function challenge()")) = .error (.error e) →
      (parseAuthData P domAsString).1 = .error (parserErrorWith e.message)) ∧
    (∀ doc, P.load domAsString = .ok doc → (∃ a ∈ doc.bodyListAnchors, a.href = none) →
      (parseRaeData P domAsString).1 = .error (parserErrorWith P.replaceFault.message)) ∧
    ((∀ fault, P.load domAsString ≠ .error (.nullish fault)) →
      (∀ doc crc fault, P.load domAsString = .ok doc → doc.scripts[1]? = some crc →
        P.run (challengeBody crc (indexOf crc "function challenge()")) ≠
          .error (.nullish fault)) →
      ∀ e, (parseAuthData P domAsString).1 = .error e → ∃ text, e = parserErrorWith text) ∧
    ((∀ fault, P.load domAsString ≠ .error (.nullish fault)) →
      ∀ e, (parseRaeData P domAsString).1 = .error e → ∃ text, e = parserErrorWith text) ∧
    (∀ e : JsError, ParserError (.error e) = .ok (parserErrorWith e.message)) ∧
    (∀ text : String, (parserErrorWith text).message =
      "\"" ++ text ++
        "\" parser error found. Please raise an issue at https://github.com/Tsur/node-rae/issues") := by
  refine ⟨?_, ?_, ?_, ?_, ?_, ?_, ?_⟩
  · intro e hload
    constructor
    · simp only [parseAuthData, parseAuth, parseAuthTry, hload]
      rfl
    · simp only [parseRaeData, parseData, parseDataTry, hload]
      rfl
  · intro doc crc e hload hcrc hpos hrun
    have hne : ¬ crc.data.isEmpty = true := by
      intro hemp
      rw [indexOf_empty crc hemp] at hpos
      omega
    have hlt : ¬ indexOf crc "function challenge()" < 0 := by omega
    simp only [parseAuthData, parseAuth, parseAuthTry, hload, hcrc]
    rw [if_neg hne]
    simp only [if_neg hlt, hrun]
    rfl
  · intro doc hload hmiss
    have hlen : doc.bodyListAnchors ≠ [] := by
      rcases hmiss with ⟨a, ha, _⟩
      exact List.ne_nil_of_mem ha
    simp only [parseRaeData, parseData, parseDataTry, hload]
    simp [hlen, eachItem_missing_href _ P hmiss]
    rfl
  · intro hload hrun e he
    obtain ⟨t, ht, rfl⟩ := parseAuth_error_inv P domAsString e he
    apply thrownBy_readable
    intro fault hf
    subst hf
    rcases parseAuthTry_error_source P domAsString _ ht with h | h | ⟨doc, crc, hd, hs, hr⟩
    · cases h
    · exact hload fault h
    · exact hrun doc crc fault hd hs hr
  · intro hload e he
    obtain ⟨t, ht, rfl⟩ := parseData_error_inv P domAsString e he
    apply thrownBy_readable
    intro fault hf
    subst hf
    rcases parseDataTry_error_source P domAsString _ ht with h | h
    · cases h
    · exact hload fault h
  · intro e
    rfl
  · intro text
    rfl

/-- Claim C10, amended, on a platform whose markup library fails with `boom` and on one
whose challenge evaluation fails with `bang`. -/
theorem parser_faults_wrapped_witness :
    (parseAuthData (faultyPlatform (some (.error ⟨"boom"⟩)) (.error ⟨"bang"⟩) sampleAuthDoc)
        "page").1 =
        .error ⟨"\"boom\" parser error found. Please raise an issue at https://github.com/Tsur/node-rae/issues"⟩ ∧
      (parseRaeData (faultyPlatform (some (.error ⟨"boom"⟩)) (.error ⟨"bang"⟩) sampleAuthDoc)
        "page").1 =
        .error ⟨"\"boom\" parser error found. Please raise an issue at https://github.com/Tsur/node-rae/issues"⟩ ∧
      (parseAuthData (faultyPlatform none (.error ⟨"bang"⟩) sampleAuthDoc) "page").1 =
        .error ⟨"\"bang\" parser error found. Please raise an issue at https://github.com/Tsur/node-rae/issues"⟩ :=
  ⟨((parser_faults_wrapped
      (faultyPlatform (some (.error ⟨"boom"⟩)) (.error ⟨"bang"⟩) sampleAuthDoc) "page").1
      ⟨"boom"⟩ rfl).1,
    ((parser_faults_wrapped
      (faultyPlatform (some (.error ⟨"boom"⟩)) (.error ⟨"bang"⟩) sampleAuthDoc) "page").1
      ⟨"boom"⟩ rfl).2,
    (parser_faults_wrapped (faultyPlatform none (.error ⟨"bang"⟩) sampleAuthDoc) "page").2.1
      sampleAuthDoc _ ⟨"bang"⟩ rfl rfl (by decide) rfl⟩

end RaeLite
